import Mathlib

/-!
Shallow embedding of the DAKboard earnings calendar server (src/app.js).

Date policy: the spec (section 4.2) leaves the timezone policy to the
implementer and suggests UTC; this embedding fixes the UTC policy, so
JavaScript Date.getDay, Date.getDate, toISOString and toLocaleDateString all
read the same calendar date.  A calendar date is encoded as the number of days
since 1970-01-01; an instant as the number of seconds since the epoch.  The
ISO string YYYY-MM-DD rendering of a day number is injective and monotone
(years 1970..9999 render with four digits), so using day numbers as the keys
of the date-group map and numeric order in place of localeCompare on the
rendered keys is a faithful image of the source.

Raw records carry the already-parsed date portion of the `date` field (the
source drops a time-of-day suffix with split and re-parses); a record whose
date string does not parse makes the whole try-block of fetchEarningsData
throw, which is the FetchOutcome.error case below.
-/

namespace DakboardEarnings

/-- Calendar date: days since 1970-01-01 (UTC). -/
abbrev Day := Nat

/-- Instant: seconds since 1970-01-01T00:00:00Z. -/
abbrev Instant := Nat

/-- UTC calendar date of an instant. -/
def dateOf (t : Instant) : Day := t / 86400

/-- Day of week of a day number, 0 = Sunday .. 6 = Saturday (1970-01-01 was a
Thursday, code 4).  Models JavaScript Date.getDay under the UTC policy. -/
def getDay (d : Day) : Nat := (d + 4) % 7

/-- Weekend test used at src/app.js lines 81-84 and 128-129:
day === 0 or day === 6. -/
def isWeekend (d : Day) : Bool := getDay d == 0 || getDay d == 6

/-- Civil (year, month, dayOfMonth) of a day number, standard
days-from-civil inversion; total on Nat since every day number of interest is
nonnegative.  Models the calendar reads (getDate, toISOString,
toLocaleDateString) of the source. -/
def civilFromDays (z : Day) : Nat × Nat × Nat :=
  let n := z + 719468
  let era := n / 146097
  let doe := n % 146097
  let yoe := (doe - doe / 1460 + doe / 36524 - doe / 146096) / 365
  let y := yoe + era * 400
  let doy := doe - (365 * yoe + yoe / 4 - yoe / 100)
  let mp := (5 * doy + 2) / 153
  let dom := doy - (153 * mp + 2) / 5 + 1
  let m := if mp < 10 then mp + 3 else mp - 9
  (if m ≤ 2 then y + 1 else y, m, dom)

/-- Day-of-month of a day number; models Date.getDate (src/app.js line 136)
under the UTC policy. -/
def dayOfMonth (d : Day) : Nat := (civilFromDays d).2.2

def pad2 (n : Nat) : String :=
  if n < 10 then "0" ++ toString n else toString n

def pad4 (n : Nat) : String :=
  if n < 10 then "000" ++ toString n
  else if n < 100 then "00" ++ toString n
  else if n < 1000 then "0" ++ toString n
  else toString n

/-- YYYY-MM-DD rendering of a day number. -/
def isoDate (d : Day) : String :=
  let c := civilFromDays d
  pad4 c.1 ++ "-" ++ pad2 c.2.1 ++ "-" ++ pad2 c.2.2

/-- formatDate (src/app.js lines 39-41): date.toISOString().split at T, first
part; i.e. the YYYY-MM-DD rendering of the UTC calendar date of the instant. -/
def formatDate (t : Instant) : String := isoDate (dateOf t)

def monthNames : List String :=
  ["January", "February", "March", "April", "May", "June",
   "July", "August", "September", "October", "November", "December"]

/-- toLocaleDateString en-US with long month, numeric day and year
(src/app.js lines 106 and 236), e.g. "January 1, 1970". -/
def longDate (d : Day) : String :=
  let c := civilFromDays d
  monthNames.getD (c.2.1 - 1) "" ++ " " ++ toString c.2.2 ++ ", " ++ toString c.1

/-- Date-range computation of src/app.js lines 49-54: fromDate is today,
endDate is today plus 14 calendar days (setDate with day-of-month + 14), both
rendered with formatDate. -/
def computeFetchWindow (t : Instant) : String × String :=
  (formatDate t, formatDate (t + 14 * 86400))

/-- Raw earnings record as consumed from the API response array.  The date
field holds the parsed date portion of the `date` string; epsEstimated is the
`epsEstimated` field, absent or a number (modelled as a rational). -/
structure RawRecord where
  symbol : String
  name : Option String
  date : Day
  epsEstimated : Option ℚ
deriving DecidableEq

/-- Per-company entry stored in a date group (src/app.js lines 92-96). -/
structure Entry where
  symbol : String
  name : String
  eps : Option ℚ
deriving DecidableEq

/-- Display card: the DAKboard JSON unit (value, title, subtitle). -/
structure Card where
  value : String
  title : String
  subtitle : String
deriving DecidableEq

/-- JavaScript `earning.name || earning.symbol` (src/app.js line 94): a falsy
name (absent or the empty string) falls back to the symbol. -/
def effectiveName (r : RawRecord) : String :=
  match r.name with
  | some s => if s = "" then r.symbol else s
  | none => r.symbol

def mkEntry (r : RawRecord) : Entry :=
  { symbol := r.symbol, name := effectiveName r, eps := r.epsEstimated }

/-- Insert an entry under a date key, keeping the position of an existing key
and appending a fresh key at the end: the JavaScript object update at
src/app.js lines 88-96 (string keys iterate in insertion order). -/
def addToGroup : List (Day × List Entry) → Day → Entry → List (Day × List Entry)
  | [], d, e => [(d, [e])]
  | (k, es) :: rest, d, e =>
    if k = d then (k, es ++ [e]) :: rest
    else (k, es) :: addToGroup rest d e

/-- One step of the forEach at src/app.js lines 77-97: weekend records are
dropped (early return), others are grouped under their date. -/
def groupStep (m : List (Day × List Entry)) (r : RawRecord) : List (Day × List Entry) :=
  if isWeekend r.date then m else addToGroup m r.date (mkEntry r)

/-- The grouping stage: earningsByDate built by the forEach of src/app.js
lines 77-97. -/
def groupRecords (rs : List RawRecord) : List (Day × List Entry) :=
  rs.foldl groupStep []

def dayLabels : List String :=
  ["Monday", "Tuesday", "Wednesday", "Thursday", "Friday"]

/-- Rendering of a rational EPS value.  JavaScript template interpolation
prints the underlying number; this embedding prints the integer value when
the rational is integral and an explicit fraction otherwise — an injective
rendering of the same numeric value. -/
def numToString (q : ℚ) : String :=
  if q.den = 1 then toString q.num else toString q.num ++ "/" ++ toString q.den

/-- Company card (src/app.js lines 146-152).  The subtitle condition is the
JavaScript truthiness of earning.eps: an absent estimate and an estimate of 0
are both falsy and give the empty subtitle. -/
def companyCard (e : Entry) : Card :=
  { value := e.symbol, title := e.name,
    subtitle :=
      match e.eps with
      | some v => if v = 0 then "" else "Est. EPS: $" ++ numToString v
      | none => "" }

/-- Section-separator card (src/app.js lines 155-161). -/
def separatorCard : Card := { value := "---", title := "", subtitle := "" }

/-- Value of a day-label card (src/app.js lines 135-143): positional weekday
label indexed by counter mod 5, then the day-of-month. -/
def dayLabelValue (counter : Nat) (d : Day) : String :=
  dayLabels.getD (counter % 5) "" ++ " - " ++ toString (dayOfMonth d)

def dayLabelCard (counter : Nat) (d : Day) : Card :=
  { value := dayLabelValue counter d, title := "", subtitle := "" }

/-- Lexicographic comparison of char lists by code point: the ascending
order induced by the localeCompare comparator of src/app.js line 132 (for
the ASCII ticker symbols locale collation agrees with code-point order). -/
def charListLe : List Char → List Char → Bool
  | [], _ => true
  | _ :: _, [] => false
  | a :: as, b :: bs =>
    if a < b then true
    else if b < a then false
    else charListLe as bs

/-- symbol-to-symbol comparator used by the entry sort. -/
def symbolLe (a b : String) : Bool := charListLe a.data b.data

/-- earnings.sort by symbol (src/app.js line 132); insertion sort is stable,
matching the stable ES2019 Array sort with a localeCompare comparator. -/
def sortEntries (es : List Entry) : List Entry :=
  List.insertionSort (fun a b => symbolLe a.symbol b.symbol = true) es

/-- Object.entries(...).sort on keys (src/app.js line 119); numeric order on
day numbers coincides with localeCompare on the YYYY-MM-DD renderings. -/
def sortDates (m : List (Day × List Entry)) : List (Day × List Entry) :=
  List.insertionSort (fun a b => a.1 ≤ b.1) m

/-- The for-of loop of src/app.js lines 122-164: break once the business-day
counter reaches 10; defensively skip weekend keys without counting; otherwise
emit the day-label card, the company cards in symbol order, a separator
whenever the counter is below 9, and continue with the counter incremented. -/
def transformLoop : List (Day × List Entry) → Nat → List Card
  | [], _ => []
  | (d, es) :: rest, counter =>
    if 10 ≤ counter then []
    else if isWeekend d then transformLoop rest counter
    else
      dayLabelCard counter d ::
        ((sortEntries es).map companyCard ++
          (if counter < 9 then [separatorCard] else []) ++
          transformLoop rest (counter + 1))

/-- Header card (src/app.js lines 103-107). -/
def headerCard (t : Instant) : Card :=
  { value := "The Most Anticipated Earnings Releases", title := "",
    subtitle := "for the period beginning " ++ longDate (dateOf t) }

/-- Note card (src/app.js lines 110-114). -/
def noteCard : Card :=
  { value := "(only showing confirmed release dates)", title := "", subtitle := "" }

/-- The transformer (src/app.js lines 100-164): header, note, then the day
groups in ascending date order. -/
def transform (earningsByDate : List (Day × List Entry)) (t : Instant) : List Card :=
  headerCard t :: noteCard :: transformLoop (sortDates earningsByDate) 0

/-- getSampleData (src/app.js lines 228-479), transcribed literally; only the
header subtitle is derived live from the current instant. -/
def getSampleData (t : Instant) : List Card :=
  [{ value := "The Most Anticipated Earnings Releases", title := "",
     subtitle := "for the period beginning " ++ longDate (dateOf t) },
   { value := "(only showing confirmed release dates)", title := "", subtitle := "" },
   { value := "Monday - 14", title := "", subtitle := "" },
   { value := "AMEX", title := "American Express", subtitle := "Est. EPS: $2.45" },
   { value := "MTB", title := "M&T Bank", subtitle := "Est. EPS: $3.12" },
   { value := "FBK", title := "First Bank", subtitle := "Est. EPS: $0.78" },
   { value := "PNFP", title := "Pinnacle Financial", subtitle := "Est. EPS: $1.65" },
   { value := "KSTR", title := "Kestra Financial", subtitle := "Est. EPS: $0.92" },
   { value := "---", title := "", subtitle := "" },
   { value := "Tuesday - 15", title := "", subtitle := "" },
   { value := "BAC", title := "Bank of America", subtitle := "Est. EPS: $0.82" },
   { value := "UAL", title := "United Airlines", subtitle := "Est. EPS: $2.34" },
   { value := "C", title := "Citigroup", subtitle := "Est. EPS: $1.42" },
   { value := "JNJ", title := "Johnson & Johnson", subtitle := "Est. EPS: $2.75" },
   { value := "---", title := "", subtitle := "" },
   { value := "Wednesday - 16", title := "", subtitle := "" },
   { value := "ASML", title := "ASML Holding", subtitle := "Est. EPS: $3.54" },
   { value := "AA", title := "Alcoa", subtitle := "Est. EPS: $0.22" },
   { value := "PGR", title := "Progressive", subtitle := "Est. EPS: $2.40" },
   { value := "ABT", title := "Abbott Laboratories", subtitle := "Est. EPS: $1.12" },
   { value := "---", title := "", subtitle := "" },
   { value := "Thursday - 17", title := "", subtitle := "" },
   { value := "NFLX", title := "Netflix", subtitle := "Est. EPS: $4.72" },
   { value := "TSM", title := "Taiwan Semiconductor", subtitle := "Est. EPS: $1.32" },
   { value := "UNH", title := "UnitedHealth Group", subtitle := "Est. EPS: $6.68" },
   { value := "---", title := "", subtitle := "" },
   { value := "Friday - 18", title := "", subtitle := "" },
   { value := "ALLY", title := "Ally Financial", subtitle := "Est. EPS: $0.54" },
   { value := "DHI", title := "D.R. Horton", subtitle := "Est. EPS: $3.24" },
   { value := "---", title := "", subtitle := "" },
   { value := "Monday - 21", title := "", subtitle := "" },
   { value := "AZZ", title := "AZZ Inc", subtitle := "Est. EPS: $0.92" },
   { value := "AGNC", title := "AGNC Investment", subtitle := "Est. EPS: $0.54" },
   { value := "---", title := "", subtitle := "" },
   { value := "Tuesday - 22", title := "", subtitle := "" },
   { value := "TSLA", title := "Tesla", subtitle := "Est. EPS: $0.67" },
   { value := "VZ", title := "Verizon", subtitle := "Est. EPS: $1.18" },
   { value := "---", title := "", subtitle := "" },
   { value := "Wednesday - 23", title := "", subtitle := "" },
   { value := "IBM", title := "IBM", subtitle := "Est. EPS: $1.58" },
   { value := "T", title := "AT&T", subtitle := "Est. EPS: $0.57" },
   { value := "---", title := "", subtitle := "" },
   { value := "Thursday - 24", title := "", subtitle := "" },
   { value := "INTC", title := "Intel", subtitle := "Est. EPS: $0.13" },
   { value := "MS", title := "Morgan Stanley", subtitle := "Est. EPS: $1.72" },
   { value := "---", title := "", subtitle := "" },
   { value := "Friday - 25", title := "", subtitle := "" },
   { value := "CVX", title := "Chevron", subtitle := "Est. EPS: $3.05" },
   { value := "XOM", title := "Exxon Mobil", subtitle := "Est. EPS: $2.12" }]

/-- Result of the fetch-and-parse stage of fetchEarningsData: a parsed array
of records, a JSON body that is not an array (src/app.js lines 66-72), or a
thrown error anywhere in the try-block — network failure, JSON parse failure
or an unparsable record date (src/app.js lines 172-176). -/
inductive FetchOutcome where
  | ok (records : List RawRecord)
  | notArray
  | error
deriving DecidableEq

/-- Mutable state touched by fetchEarningsData: the in-memory cachedData slot
and the on-disk cache file (none when absent). -/
structure FetchState where
  cachedData : List Card
  dataFile : Option (List Card)
deriving DecidableEq

/-- fetchEarningsData (src/app.js lines 44-177) with the network call
abstracted to its outcome: on success it groups, transforms, writes the file,
publishes cachedData and returns the cards; when the body is not an array or
anything throws, it returns getSampleData() and touches no state. -/
def fetchEarningsData (outcome : FetchOutcome) (t : Instant) (st : FetchState) :
    List Card × FetchState :=
  match outcome with
  | .notArray => (getSampleData t, st)
  | .error => (getSampleData t, st)
  | .ok records =>
    let dakboardData := transform (groupRecords records) t
    (dakboardData, { cachedData := dakboardData, dataFile := some dakboardData })

/-- Body of the GET /api/refresh response (src/app.js lines 212-215). -/
structure RefreshResponse where
  success : Bool
  message : String
  count : Nat
deriving DecidableEq

/-- The GET /api/refresh handler (src/app.js lines 212-215): run
fetchEarningsData and answer success with the element count. -/
def apiRefresh (outcome : FetchOutcome) (t : Instant) (st : FetchState) :
    RefreshResponse × FetchState :=
  let r := fetchEarningsData outcome t st
  ({ success := true, message := "Data refreshed successfully", count := r.1.length }, r.2)

/-- Recogniser for a Day-label card, following the spec (section 3)
convention: the value starts with one of the five weekday labels followed by
" - ", and title and subtitle are empty.  No other card variant matches: the
header and note values start differently, the separator value is "---", and a
company card with empty title has an empty value (its title is the
symbol-defaulted name). -/
def isDayLabelCard (c : Card) : Bool :=
  dayLabels.any (fun l => c.value.data.take (l.data.length + 3) == (l ++ " - ").data) &&
    c.title == "" && c.subtitle == ""

/-- Number of Day-label cards in a card sequence. -/
def dayLabelCount (cards : List Card) : Nat := cards.countP isDayLabelCard

/-- Invariant of entries built by the grouping stage: the name field was
defaulted to the symbol, so an empty name forces an empty symbol. -/
def GoodEntry (e : Entry) : Prop := e.name = "" → e.symbol = ""

/-- Every entry of every group satisfies GoodEntry. -/
def GoodMap (m : List (Day × List Entry)) : Prop :=
  ∀ p ∈ m, ∀ e ∈ p.2, GoodEntry e

theorem charListLe_total : ∀ x y : List Char, charListLe x y = true ∨ charListLe y x = true
  | [], _ => Or.inl rfl
  | _ :: _, [] => Or.inr rfl
  | a :: as, b :: bs => by
    rcases lt_trichotomy a b with h | h | h
    · left; simp [charListLe, h]
    · rcases charListLe_total as bs with h2 | h2
      · left; simp [charListLe, h, lt_irrefl, h2]
      · right; simp [charListLe, h, lt_irrefl, h2]
    · right; simp [charListLe, h]

theorem charListLe_trans :
    ∀ x y z : List Char, charListLe x y = true → charListLe y z = true →
      charListLe x z = true
  | [], _, _, _, _ => rfl
  | _ :: _, [], _, h1, _ => by simp [charListLe] at h1
  | _ :: _, _ :: _, [], _, h2 => by simp [charListLe] at h2
  | a :: as, b :: bs, c :: cs, h1, h2 => by
    rcases lt_trichotomy a b with hab | hab | hab
    · rcases lt_trichotomy b c with hbc | hbc | hbc
      · simp [charListLe, lt_trans hab hbc]
      · rw [← hbc]; simp [charListLe, hab]
      · simp [charListLe, asymm hbc, hbc] at h2
    · rw [hab] at h1 ⊢
      simp only [charListLe, lt_irrefl, if_false] at h1 ⊢
      rcases lt_trichotomy b c with hbc | hbc | hbc
      · simp [hbc]
      · rw [← hbc] at h2 ⊢
        simp only [charListLe, lt_irrefl, if_false] at h2 ⊢
        exact charListLe_trans as bs cs h1 h2
      · simp [charListLe, asymm hbc, hbc] at h2
    · simp [charListLe, asymm hab, hab] at h1

instance : IsTotal Entry (fun a b => symbolLe a.symbol b.symbol = true) :=
  ⟨fun a b => charListLe_total a.symbol.data b.symbol.data⟩

instance : IsTrans Entry (fun a b => symbolLe a.symbol b.symbol = true) :=
  ⟨fun a b c h1 h2 => charListLe_trans a.symbol.data b.symbol.data c.symbol.data h1 h2⟩

theorem charListLe_not_lex :
    ∀ x y : List Char, charListLe x y = true → ¬ List.Lex (· < ·) y x
  | [], _, _, hl => by cases hl
  | _ :: _, [], h, _ => by simp [charListLe] at h
  | a :: as, b :: bs, h, hl => by
    cases hl with
    | cons htl =>
      simp only [charListLe, lt_irrefl, if_false] at h
      exact charListLe_not_lex as bs h htl
    | rel hr =>
      simp [charListLe, asymm hr, hr] at h

/-- The Bool comparator implies the lexicographic order on String used by
Mathlib. -/
theorem symbolLe_le (a b : String) (h : symbolLe a b = true) : a ≤ b := by
  rw [String.le_iff_toList_le]
  refine le_of_not_lt ?_
  intro hlt
  exact charListLe_not_lex a.data b.data h hlt

theorem goodEntry_mkEntry (r : RawRecord) : GoodEntry (mkEntry r) := by
  intro h
  have h2 : effectiveName r = "" := h
  show r.symbol = ""
  cases hn : r.name with
  | none => simp only [effectiveName, hn] at h2; exact h2
  | some s =>
    by_cases hs : s = ""
    · simp only [effectiveName, hn, hs, if_pos] at h2
      exact h2
    · simp only [effectiveName, hn, if_neg hs] at h2
      exact absurd h2 hs

theorem keys_addToGroup (m : List (Day × List Entry)) (d : Day) (e : Entry) (k : Day)
    (hk : k ∈ (addToGroup m d e).map Prod.fst) : k ∈ m.map Prod.fst ∨ k = d := by
  induction m with
  | nil =>
    right
    simpa [addToGroup] using hk
  | cons q rest ih =>
    obtain ⟨kq, es⟩ := q
    by_cases h : kq = d
    · simp only [addToGroup, if_pos h, List.map_cons, List.mem_cons] at hk
      rcases hk with hk | hk
      · exact Or.inl (by simp [hk])
      · exact Or.inl (List.mem_cons_of_mem _ hk)
    · simp only [addToGroup, if_neg h, List.map_cons, List.mem_cons] at hk
      rcases hk with hk | hk
      · exact Or.inl (by simp [hk])
      · rcases ih hk with h2 | h2
        · exact Or.inl (List.mem_cons_of_mem _ h2)
        · exact Or.inr h2

theorem keys_foldl_not_weekend (rs : List RawRecord) :
    ∀ m : List (Day × List Entry),
      (∀ k ∈ m.map Prod.fst, isWeekend k = false) →
      ∀ k ∈ (rs.foldl groupStep m).map Prod.fst, isWeekend k = false := by
  induction rs with
  | nil => intro m hm k hk; exact hm k hk
  | cons r rs ih =>
    intro m hm k hk
    rw [List.foldl_cons] at hk
    refine ih (groupStep m r) ?_ k hk
    intro k2 hk2
    unfold groupStep at hk2
    cases hw : isWeekend r.date with
    | true => rw [if_pos hw] at hk2; exact hm k2 hk2
    | false =>
      rw [if_neg (by simp [hw])] at hk2
      rcases keys_addToGroup m r.date (mkEntry r) k2 hk2 with h | h
      · exact hm k2 h
      · rw [h]; exact hw

theorem foldl_groupStep_filter (rs : List RawRecord) :
    ∀ m : List (Day × List Entry),
      rs.foldl groupStep m =
        (rs.filter (fun r => !isWeekend r.date)).foldl groupStep m := by
  induction rs with
  | nil => intro m; rfl
  | cons r rs ih =>
    intro m
    rw [List.foldl_cons, List.filter_cons]
    cases hw : isWeekend r.date with
    | true =>
      have hstep : groupStep m r = m := by unfold groupStep; rw [if_pos hw]
      rw [hstep]
      simp only [Bool.not_true]
      rw [if_neg (by simp)]
      exact ih m
    | false =>
      simp only [Bool.not_false]
      rw [if_pos trivial, List.foldl_cons]
      exact ih (groupStep m r)

theorem goodMap_addToGroup (d : Day) (e : Entry) (he : GoodEntry e) :
    ∀ m : List (Day × List Entry), GoodMap m → GoodMap (addToGroup m d e) := by
  intro m
  induction m with
  | nil =>
    intro _ p hp e2 he2
    have hp2 : p = (d, [e]) := by simpa [addToGroup] using hp
    rw [hp2] at he2
    have he3 : e2 = e := by simpa using he2
    rw [he3]; exact he
  | cons q rest ih =>
    intro hm p hp e2 he2
    obtain ⟨kq, es⟩ := q
    have hhead : ∀ e3 ∈ es, GoodEntry e3 := fun e3 h3 => hm (kq, es) (by simp) e3 h3
    have htail : GoodMap rest := fun p2 hp2 => hm p2 (List.mem_cons_of_mem _ hp2)
    by_cases hk : kq = d
    · simp only [addToGroup, if_pos hk, List.mem_cons] at hp
      rcases hp with hp | hp
      · rw [hp] at he2
        rcases List.mem_append.mp he2 with h2 | h2
        · exact hhead e2 h2
        · rw [List.mem_singleton.mp h2]; exact he
      · exact htail p hp e2 he2
    · simp only [addToGroup, if_neg hk, List.mem_cons] at hp
      rcases hp with hp | hp
      · rw [hp] at he2; exact hhead e2 he2
      · exact ih htail p hp e2 he2

theorem goodMap_groupRecords (rs : List RawRecord) : GoodMap (groupRecords rs) := by
  have h : ∀ m : List (Day × List Entry), GoodMap m → GoodMap (rs.foldl groupStep m) := by
    induction rs with
    | nil => intro m hm; exact hm
    | cons r rs ih =>
      intro m hm
      rw [List.foldl_cons]
      refine ih _ ?_
      unfold groupStep
      by_cases hw : isWeekend r.date = true
      · rw [if_pos hw]; exact hm
      · rw [if_neg hw]
        exact goodMap_addToGroup r.date (mkEntry r) (goodEntry_mkEntry r) m hm
  exact h [] (fun p hp => absurd hp (List.not_mem_nil p))

theorem goodMap_sortDates (m : List (Day × List Entry)) (hm : GoodMap m) :
    GoodMap (sortDates m) :=
  fun p hp => hm p ((List.mem_insertionSort _).mp hp)

theorem take_label (a s : String) :
    (a ++ " - " ++ s).data.take (a.data.length + 3) = (a ++ " - ").data := by
  rw [show a ++ " - " ++ s = (a ++ " - ") ++ s from rfl, String.data_append]
  refine List.take_left' ?_
  rw [String.data_append, List.length_append]
  have h3 : (" - " : String).data.length = 3 := by decide
  rw [h3]

theorem isDayLabelCard_headerCard (t : Instant) :
    isDayLabelCard (headerCard t) = false := rfl

theorem isDayLabelCard_noteCard : isDayLabelCard noteCard = false := by decide

theorem isDayLabelCard_separatorCard : isDayLabelCard separatorCard = false := by decide

theorem isDayLabelCard_empty_value (ti su : String) :
    isDayLabelCard { value := "", title := ti, subtitle := su } = false := rfl

theorem isDayLabelCard_nonempty_title (v ti su : String) (h : ti ≠ "") :
    isDayLabelCard { value := v, title := ti, subtitle := su } = false := by
  unfold isDayLabelCard
  rw [show ({ value := v, title := ti, subtitle := su } : Card).title = ti from rfl,
    beq_eq_false_iff_ne.mpr h, Bool.and_false, Bool.false_and]

theorem getD_dayLabels_mem (i : Nat) (h : i < 5) : dayLabels.getD i "" ∈ dayLabels := by
  interval_cases i <;> decide

theorem isDayLabelCard_dayLabelCard (c : Nat) (d : Day) :
    isDayLabelCard (dayLabelCard c d) = true := by
  have h5 : c % 5 < 5 := Nat.mod_lt _ (by norm_num)
  have hmem := getD_dayLabels_mem (c % 5) h5
  simp only [isDayLabelCard, Bool.and_eq_true, List.any_eq_true, beq_iff_eq]
  refine ⟨⟨⟨dayLabels.getD (c % 5) "", hmem, ?_⟩, rfl⟩, rfl⟩
  exact take_label (dayLabels.getD (c % 5) "") (toString (dayOfMonth d))

theorem isDayLabelCard_companyCard (e : Entry) (he : GoodEntry e) :
    isDayLabelCard (companyCard e) = false := by
  by_cases hn : e.name = ""
  · have hs : e.symbol = "" := he hn
    calc isDayLabelCard (companyCard e)
        = isDayLabelCard
            { value := e.symbol, title := e.name, subtitle := (companyCard e).subtitle } := rfl
      _ = isDayLabelCard
            { value := "", title := e.name, subtitle := (companyCard e).subtitle } := by rw [hs]
      _ = false := isDayLabelCard_empty_value _ _
  · calc isDayLabelCard (companyCard e)
        = isDayLabelCard
            { value := e.symbol, title := e.name, subtitle := (companyCard e).subtitle } := rfl
      _ = false := isDayLabelCard_nonempty_title _ _ _ hn

theorem countP_transformLoop (l : List (Day × List Entry)) :
    ∀ c : Nat, GoodMap l → dayLabelCount (transformLoop l c) ≤ 10 - c := by
  induction l with
  | nil => intro c _; simp [transformLoop, dayLabelCount]
  | cons p rest ih =>
    intro c hm
    obtain ⟨d, es⟩ := p
    have htail : GoodMap rest := fun q hq => hm q (List.mem_cons_of_mem _ hq)
    by_cases h10 : 10 ≤ c
    · simp only [transformLoop, if_pos h10]
      simp [dayLabelCount]
    · rw [show transformLoop ((d, es) :: rest) c =
          (if 10 ≤ c then []
           else if isWeekend d then transformLoop rest c
           else
             dayLabelCard c d ::
               ((sortEntries es).map companyCard ++
                 (if c < 9 then [separatorCard] else []) ++
                 transformLoop rest (c + 1))) from rfl, if_neg h10]
      by_cases hw : isWeekend d = true
      · rw [if_pos hw]
        exact ih c htail
      · rw [if_neg hw]
        unfold dayLabelCount at *
        rw [List.countP_cons, List.countP_append, List.countP_append,
          isDayLabelCard_dayLabelCard, if_pos rfl]
        have hcomp : List.countP isDayLabelCard ((sortEntries es).map companyCard) = 0 := by
          rw [List.countP_eq_zero]
          intro card hcard
          rw [List.mem_map] at hcard
          obtain ⟨e, hemem, hce⟩ := hcard
          have hes : e ∈ es := (List.mem_insertionSort _).mp hemem
          rw [← hce]
          simp [isDayLabelCard_companyCard e (hm (d, es) (by simp) e hes)]
        have hsep : List.countP isDayLabelCard (if c < 9 then [separatorCard] else []) = 0 := by
          by_cases h9 : c < 9
          · rw [if_pos h9]
            simp [isDayLabelCard_separatorCard]
          · rw [if_neg h9]
            rfl
        have hrec := ih (c + 1) htail
        rw [hcomp, hsep]
        omega

theorem estLabel_ne_empty (s : String) : "Est. EPS: $" ++ s ≠ "" := by
  intro h
  have h2 : ("Est. EPS: $" ++ s).length = 0 := by rw [h]; rfl
  rw [String.length_append] at h2
  have h3 : ("Est. EPS: $" : String).length = 11 := by decide
  rw [h3] at h2
  omega

/-- Claim C1, evaluated at the failing input (code bug): for a grouped input
with a single weekday-dated record, the transform emits a Section-separator
card as the very last card, immediately after the only
Day-label/Company-card block, because the separator condition compares the
business-day counter against the fixed constant 9 instead of testing whether
the current date is the last emitted one.  Day 19737 is Monday 2024-01-15. -/
theorem c1_trailing_separator_after_last_day :
    transform (groupRecords
      [{ symbol := "AAPL", name := none, date := 19737, epsEstimated := none }]) 0 =
      [headerCard 0, noteCard,
       { value := "Monday - 15", title := "", subtitle := "" },
       { value := "AAPL", title := "AAPL", subtitle := "" },
       separatorCard] := rfl

/-- Claim C2 counterexample: after a fetch failure (body not an array) the
published cachedData slot is NOT set to the Fallback sequence — it keeps its
previous value (here the empty list), so the claim that the published
CardSequence equals the Fallback sequence is false. -/
theorem c2_cached_not_fallback_counterexample :
    (fetchEarningsData .notArray 0 { cachedData := [], dataFile := none }).2.cachedData ≠
      getSampleData 0 := by decide

/-- Claim C2 amended: on either fetch-stage failure (non-array body or a
thrown error) fetchEarningsData returns the Fallback sequence without
crashing and leaves the whole state untouched: the on-disk cache file is not
overwritten and the published cachedData slot keeps its previous value (it
is not set to the Fallback sequence). -/
theorem c2_fetch_failure_fallback_state_unchanged (t : Instant) (st : FetchState) :
    fetchEarningsData .notArray t st = (getSampleData t, st) ∧
    fetchEarningsData .error t st = (getSampleData t, st) :=
  ⟨rfl, rfl⟩

/-- Claim C3: for every input record list the grouping stage produces no
weekend-dated key, and weekend-dated records are dropped without a trace:
the grouping result coincides with the grouping of the weekday-only
records. -/
theorem c3_grouping_no_weekend_keys (rs : List RawRecord) :
    ((groupRecords rs).map Prod.fst).all (fun k => !isWeekend k) = true ∧
    groupRecords rs = groupRecords (rs.filter (fun r => !isWeekend r.date)) := by
  constructor
  · rw [List.all_eq_true]
    intro k hk
    have h := keys_foldl_not_weekend rs [] (by simp) k hk
    rw [h]
    rfl
  · exact foldl_groupStep_filter rs []

/-- Claim C4 counterexample: an entry whose EPS estimate is present and
equal to 0 gets the empty subtitle, not "Est. EPS: $0" — JavaScript
truthiness treats the estimate 0 like an absent one. -/
theorem c4_zero_eps_counterexample :
    ({ symbol := "AAPL", name := "Apple", eps := some 0 } : Entry).eps.isSome = true ∧
    (companyCard { symbol := "AAPL", name := "Apple", eps := some 0 }).subtitle = "" := by
  refine ⟨rfl, ?_⟩
  show (if (0 : ℚ) = 0 then "" else "Est. EPS: $" ++ numToString 0) = ""
  rw [if_pos rfl]

/-- Claim C4 amended: the Company-card subtitle is empty exactly when the
EPS estimate is absent or equal to 0 (JavaScript falsy), and equals
"Est. EPS: $<value>" for every present nonzero estimate. -/
theorem c4_subtitle_iff_truthy_eps (e : Entry) :
    ((companyCard e).subtitle = "" ↔ e.eps = none ∨ e.eps = some 0) ∧
    ∀ v : ℚ, e.eps = some v → v ≠ 0 →
      (companyCard e).subtitle = "Est. EPS: $" ++ numToString v := by
  cases heps : e.eps with
  | none =>
    have h : (companyCard e).subtitle = "" := by simp [companyCard, heps]
    refine ⟨⟨fun _ => Or.inl rfl, fun _ => h⟩, ?_⟩
    intro v hv _
    simp at hv
  | some v0 =>
    by_cases hv0 : v0 = 0
    · have h : (companyCard e).subtitle = "" := by simp [companyCard, heps, hv0]
      refine ⟨⟨fun _ => Or.inr (by rw [hv0]), fun _ => h⟩, ?_⟩
      intro v hv hne
      have h2 : v0 = v := Option.some.inj hv
      rw [← h2, hv0] at hne
      exact absurd rfl hne
    · have h : (companyCard e).subtitle = "Est. EPS: $" ++ numToString v0 := by
        simp [companyCard, heps, hv0]
      constructor
      · constructor
        · intro hemp
          rw [h] at hemp
          exact absurd hemp (estLabel_ne_empty _)
        · intro hor
          rcases hor with h1 | h1
          · simp at h1
          · exact absurd (Option.some.inj h1) hv0
      · intro v hv hne
        rw [h, Option.some.inj hv]

/-- Witness for c4_subtitle_iff_truthy_eps at a concrete entry with a
present nonzero estimate. -/
theorem c4_subtitle_iff_truthy_eps_witness :
    (companyCard { symbol := "MSFT", name := "Microsoft", eps := some 2 }).subtitle =
      "Est. EPS: $" ++ numToString 2 :=
  (c4_subtitle_iff_truthy_eps { symbol := "MSFT", name := "Microsoft", eps := some 2 }).2
    2 rfl (by norm_num)

/-- Claim C5: for every grouped input arising from the grouping stage, the
transform output contains at most 10 Day-label cards. -/
theorem c5_at_most_ten_day_labels (rs : List RawRecord) (t : Instant) :
    dayLabelCount (transform (groupRecords rs) t) ≤ 10 := by
  have hgm : GoodMap (sortDates (groupRecords rs)) :=
    goodMap_sortDates _ (goodMap_groupRecords rs)
  have hloop := countP_transformLoop (sortDates (groupRecords rs)) 0 hgm
  unfold dayLabelCount at hloop ⊢
  unfold transform
  rw [List.countP_cons, List.countP_cons, isDayLabelCard_headerCard, isDayLabelCard_noteCard]
  simp only [if_neg (by simp : ¬false = true)]
  omega

/-- Claim C6: the fetch window starts at the calendar date of the reference
instant and ends exactly 14 calendar days later, both bounds rendered as
YYYY-MM-DD. -/
theorem c6_fetch_window_fourteen_days (t : Instant) :
    (computeFetchWindow t).1 = isoDate (dateOf t) ∧
    (computeFetchWindow t).2 = isoDate (dateOf t + 14) ∧
    dateOf (t + 14 * 86400) = dateOf t + 14 := by
  have h : dateOf (t + 14 * 86400) = dateOf t + 14 :=
    Nat.add_mul_div_right t 14 (by norm_num)
  refine ⟨rfl, ?_, h⟩
  show isoDate (dateOf (t + 14 * 86400)) = isoDate (dateOf t + 14)
  rw [h]

/-- Claim C7: within a date group the Company cards are emitted in ascending
lexicographic symbol order (the sort applied to every group is sorted), and
in the concrete two-record scenario with symbols ZZZ and AAA on the same
date the AAA card precedes the ZZZ card. -/
theorem c7_company_cards_sorted_by_symbol :
    (∀ es : List Entry, ((sortEntries es).map Entry.symbol).Sorted (· ≤ ·)) ∧
    transform (groupRecords
      [{ symbol := "ZZZ", name := none, date := 19737, epsEstimated := none },
       { symbol := "AAA", name := none, date := 19737, epsEstimated := none }]) 0 =
      [headerCard 0, noteCard,
       { value := "Monday - 15", title := "", subtitle := "" },
       { value := "AAA", title := "AAA", subtitle := "" },
       { value := "ZZZ", title := "ZZZ", subtitle := "" },
       separatorCard] := by
  constructor
  · intro es
    have h : List.Pairwise (fun a b : Entry => symbolLe a.symbol b.symbol = true)
        (sortEntries es) :=
      List.sorted_insertionSort (fun a b : Entry => symbolLe a.symbol b.symbol = true) es
    have h2 : List.Pairwise (fun a b : Entry => a.symbol ≤ b.symbol) (sortEntries es) :=
      h.imp (fun hab => symbolLe_le _ _ hab)
    exact List.pairwise_map.mpr h2
  · decide

/-- Claim C8: on an empty grouped map the transform output is exactly the
Header card followed by the Note card — no Day-label, Company or
Section-separator cards. -/
theorem c8_empty_group_header_note_only (t : Instant) :
    transform [] t = [headerCard t, noteCard] := rfl

/-- Claim C9: the GET /api/refresh handler always answers success with the
message Data refreshed successfully, for every fetch outcome — including the
failure outcomes in which the returned data is the Fallback sequence. -/
theorem c9_api_refresh_always_success (o : FetchOutcome) (t : Instant) (st : FetchState) :
    (apiRefresh o t st).1.success = true ∧
    (apiRefresh o t st).1.message = "Data refreshed successfully" :=
  ⟨rfl, rfl⟩

/-- Claim C10: every card sequence fetchEarningsData returns — live or
fallback — has at least two cards and starts with the Header card followed
by the Note card. -/
theorem c10_starts_with_header_and_note (o : FetchOutcome) (t : Instant) (st : FetchState) :
    2 ≤ (fetchEarningsData o t st).1.length ∧
    (fetchEarningsData o t st).1.take 2 = [headerCard t, noteCard] ∧
    (headerCard t).value = "The Most Anticipated Earnings Releases" ∧
    noteCard.value = "(only showing confirmed release dates)" := by
  cases o with
  | ok records =>
    refine ⟨?_, rfl, rfl, rfl⟩
    show 2 ≤ (transform (groupRecords records) t).length
    unfold transform
    rw [List.length_cons, List.length_cons]
    omega
  | notArray =>
    refine ⟨?_, rfl, rfl, rfl⟩
    show 2 ≤ (getSampleData t).length
    simp [getSampleData]
  | error =>
    refine ⟨?_, rfl, rfl, rfl⟩
    show 2 ≤ (getSampleData t).length
    simp [getSampleData]

end DakboardEarnings
